import Mathlib

set_option autoImplicit false

/-! Shallow embedding of the dynamic-rest viewset layer
(src/dynamic_rest/viewsets.py).  Request payloads and response bodies are
modelled by a small JSON-like value type; external collaborators (the Django
ORM save and update, DRF serializers, the sideloading processor) are passed
as function parameters, so every theorem quantifies over them. -/

/-- JSON-like values, the shape of request payloads and response bodies. -/
inductive Val where
  | null : Val
  | bool (b : Bool) : Val
  | num (n : Int) : Val
  | str (s : String) : Val
  | list (vs : List Val) : Val
  | obj (fields : List (String × Val)) : Val

/-- Errors raised by the viewset layer: DRF ParseError, DRF ValidationError,
and a Python TypeError (an uncaught server error). -/
inductive Err where
  | parseError (msg : String) : Err
  | validationError (msg : String) : Err
  | typeError (msg : String) : Err
deriving DecidableEq

/-- A DRF Response: a body and an HTTP status code. -/
structure Resp where
  body : Val
  status : Nat

/-- Lookup in an association list, first match wins (Python dict lookup). -/
def assocFind {α : Type} (m : List (String × α)) (k : String) : Option α :=
  match m with
  | [] => none
  | (k2, v) :: rest => if k2 = k then some v else assocFind rest k

/-- Key assignment in an association list with Python dict semantics:
replacing an existing key keeps its position, a new key is appended. -/
def assocSet {α : Type} (m : List (String × α)) (k : String) (v : α) :
    List (String × α) :=
  match m with
  | [] => [(k, v)]
  | (k2, v2) :: rest =>
    if k2 = k then (k, v) :: rest else (k2, v2) :: assocSet rest k v

/-- Whether the first char list is a prefix of the second. -/
def listLeads : List Char → List Char → Bool
  | [], _ => true
  | _ :: _, [] => false
  | a :: as, b :: bs => if a = b then listLeads as bs else false

/-- Python str.startswith over characters. -/
def pyStarts (s pat : String) : Bool := listLeads pat.data s.data

/-- Python str.endswith over characters. -/
def pyEnds (s pat : String) : Bool := listLeads pat.data.reverse s.data.reverse

/-- Split a char list on a separator char, Python str.split semantics. -/
def splitChar (c : Char) : List Char → List (List Char)
  | [] => [[]]
  | a :: as =>
    let r := splitChar c as
    if a = c then [] :: r
    else
      match r with
      | [] => [[a]]
      | g :: gs => (a :: g) :: gs

/-- Python str.split with a one-character separator. -/
def pySplit (s : String) (c : Char) : List String :=
  (splitChar c s.data).map (fun l => ⟨l⟩)

/-- ASCII lowering of one character. -/
def lowerChar (c : Char) : Char :=
  if (65 ≤ c.toNat ∧ c.toNat ≤ 90) then Char.ofNat (c.toNat + 32) else c

/-- Python str.lower (ASCII range). -/
def pyLower (s : String) : String := ⟨s.data.map lowerChar⟩

/-- Python truthiness of a value (empty list/dict/string, 0, None, False are
falsy). -/
def pyTruthy : Val → Bool
  | .null => false
  | .bool b => b
  | .num n => n != 0
  | .str s => s != ""
  | .list vs => !vs.isEmpty
  | .obj fs => !fs.isEmpty

/-- Embeds DynamicModelViewSet._get_bulk_payload (viewsets.py:473-481).
A list payload is returned as-is (even when empty); a dict with exactly one
key equal to the serializer plural name returns that value; anything else
yields no bulk payload. -/
def get_bulk_payload (pluralName : String) (data : Val) : Option Val :=
  match data with
  | .list xs => some (.list xs)
  | .obj fs =>
    match assocFind fs pluralName with
    | some v => if fs.length = 1 then some v else none
    | none => none
  | _ => none

/-- The parsed patch-all mode: off models the Python None, loop models True,
query models the string value of the same name. -/
inductive PAMode where
  | off : PAMode
  | loop : PAMode
  | query : PAMode
deriving DecidableEq

/-- Embeds WithDynamicViewSetMixin.get_request_patch_all (viewsets.py:324-338).
The input is the raw query-parameter value (none when absent); istruthy is
dynamic_rest.utils.is_truthy, an external collaborator. -/
def get_request_patch_all (istruthy : String → Bool) (param : Option String) :
    Except Err PAMode :=
  match param with
  | none => .ok .off
  | some s =>
    if s = "" then .ok .off
    else
      let l := pyLower s
      if l = "query" then .ok .query
      else if istruthy l then .ok .loop
      else .error (.parseError ("\"" ++ l ++ "\" is not valid for patch-all"))

/-- Dispatch outcome of DynamicModelViewSet.create (viewsets.py:712-715). -/
inductive CreatePath where
  | bulk (payload : Val) : CreatePath
  | singular : CreatePath

/-- Embeds the dispatch in DynamicModelViewSet.create (viewsets.py:712-715):
a truthy bulk payload goes to _create_many, otherwise the singular path. -/
def create_dispatch (pluralName : String) (data : Val) : CreatePath :=
  match get_bulk_payload pluralName data with
  | some p => if pyTruthy p then .bulk p else .singular
  | none => .singular

/-- Dispatch outcome of DynamicModelViewSet.destroy (viewsets.py:744-751). -/
inductive DestroyPath where
  | bulk (payload : Val) : DestroyPath
  | singular : DestroyPath
  | methodNotAllowed : DestroyPath

/-- Embeds the dispatch in DynamicModelViewSet.destroy (viewsets.py:744-751):
a truthy bulk payload goes to _destroy_many; otherwise, when the lookup URL
kwarg is absent the response is 405, else the singular path runs. -/
def destroy_dispatch (pluralName : String) (data : Val) (hasLookup : Bool) :
    DestroyPath :=
  match get_bulk_payload pluralName data with
  | some p =>
    if pyTruthy p then .bulk p
    else if hasLookup then .singular else .methodNotAllowed
  | none => if hasLookup then .singular else .methodNotAllowed

/-- Dispatch outcome of DynamicModelViewSet.update (viewsets.py:611-626). -/
inductive UpdatePath where
  | patchAll (byQuery : Bool) : UpdatePath
  | bulk (payload : Val) : UpdatePath
  | singular : UpdatePath

/-- Embeds the dispatch in DynamicModelViewSet.update (viewsets.py:611-626):
with bulk update enabled the patch-all parameter is parsed first (its parse
error propagates); patch-all mode wins when patch-all is enabled, else a
truthy bulk payload goes to _bulk_update, else the singular path. -/
def update_dispatch (enableBulkUpdate enablePatchAll : Bool)
    (istruthy : String → Bool) (patchAllParam : Option String)
    (pluralName : String) (data : Val) : Except Err UpdatePath :=
  if enableBulkUpdate then
    match get_request_patch_all istruthy patchAllParam with
    | .error e => .error e
    | .ok pa =>
      if enablePatchAll && decide (pa ≠ .off) then
        .ok (.patchAll (decide (pa = .query)))
      else
        match get_bulk_payload pluralName data with
        | some p => if pyTruthy p then .ok (.bulk p) else .ok .singular
        | none => .ok .singular
  else .ok .singular

/-- A declared serializer field as seen by _validate_patch_all: its source
attribute (none or the empty string mean unset, falling back to the field
name) and its read-only flag. -/
structure FieldSpec where
  source : Option String
  read_only : Bool
deriving DecidableEq

/-- The effective source of a field, the Python field.source or name. -/
def srcName (f : FieldSpec) (name : String) : String :=
  match f.source with
  | none => name
  | some s => if s = "" then name else s

/-- The per-key loop of DynamicModelViewSet._validate_patch_all
(viewsets.py:503-510), threading the validated source-to-value map. -/
def vpaLoop (fields : List (String × FieldSpec)) :
    List (String × Val) → List (String × Val) → Except Err (List (String × Val))
  | [], acc => .ok acc
  | (name, v) :: rest, acc =>
    match assocFind fields name with
    | none => .error (.validationError ("Unknown field: \"" ++ name ++ "\""))
    | some f =>
      let src := srcName f name
      if src = "*" ∨ f.read_only = true then
        .error (.validationError ("Cannot update field: \"" ++ name ++ "\""))
      else vpaLoop fields rest (assocSet acc src v)

/-- Embeds DynamicModelViewSet._validate_patch_all (viewsets.py:496-511):
non-dict payloads are rejected, then every payload key is resolved against
the declared fields, rejecting unknown, wildcard-source and read-only
fields, and mapping the source of each field to the supplied value. -/
def validate_patch_all (fields : List (String × FieldSpec)) (data : Val) :
    Except Err (List (String × Val)) :=
  match data with
  | .obj items => vpaLoop fields items []
  | _ => .error (.validationError ("Patch-all data must be in object form"))

/-- Whether a payload entry is rejected by _validate_patch_all: its key is
not a declared field, or the matched field resolves to the wildcard source
or is read-only. -/
def vpaBad (fields : List (String × FieldSpec)) (p : String × Val) : Bool :=
  match assocFind fields p.1 with
  | none => true
  | some f => (srcName f p.1 == "*") || f.read_only

/-- The source-to-value map _validate_patch_all returns on an error-free
payload, written as a direct fold for use in theorem statements. -/
def buildValidated (fields : List (String × FieldSpec))
    (items : List (String × Val)) : List (String × Val) :=
  items.foldl
    (fun acc p =>
      match assocFind fields p.1 with
      | some f => assocSet acc (srcName f p.1) p.2
      | none => acc)
    []

mutual

/-- Python str() of a value, used when error messages embed the attempted
patch data. -/
def reprVal : Val → String
  | .null => "None"
  | .bool b => if b then ("True") else ("False")
  | .num n => toString n
  | .str s => "\x27" ++ s ++ "\x27"
  | .list vs => "[" ++ reprValList vs ++ "]"
  | .obj fs => "\x7b" ++ reprFields fs ++ "\x7d"

/-- Comma-separated rendering of a list of values. -/
def reprValList : List Val → String
  | [] => ""
  | [v] => reprVal v
  | v :: rest => reprVal v ++ ", " ++ reprValList rest

/-- Comma-separated rendering of dict entries. -/
def reprFields : List (String × Val) → String
  | [] => ""
  | [p] => "\x27" ++ p.1 ++ "\x27: " ++ reprVal p.2
  | p :: rest => "\x27" ++ p.1 ++ "\x27: " ++ reprVal p.2 ++ ", " ++ reprFields rest

end

/-- Python str() of the validated patch data dict. -/
def reprData (data : List (String × Val)) : String :=
  reprVal (.obj data)

/-- A database record, as a mapping from attribute names to values. -/
def Record : Type := List (String × Val)

/-- The setattr loop of _patch_all_loop (viewsets.py:530-531): write every
validated source/value pair onto the record. -/
def applyData (data : List (String × Val)) (r : Record) : Record :=
  data.foldl (fun acc p => assocSet acc p.1 p.2) r

/-- The body of the transaction loop in _patch_all_loop (viewsets.py:528-534):
save each record of the queryset with the patch applied, threading the store
state and counting updates; the save of the store is an external collaborator
whose error is an IntegrityError message. -/
def loopAux {DB : Type} (save : DB → Record → Except String DB)
    (data : List (String × Val)) : DB → List Record → Except String (DB × Nat)
  | db, [] => .ok (db, 0)
  | db, r :: rest =>
    match save db (applyData data r) with
    | .error m => .error m
    | .ok db1 =>
      match loopAux save data db1 rest with
      | .error m => .error m
      | .ok (db2, n) => .ok (db2, n + 1)

/-- The ValidationError message produced by _patch_all_loop on an
IntegrityError (viewsets.py:535-538). -/
def loopErrMsg (m : String) (data : List (String × Val)) : String :=
  "Failed to update records:\n" ++ m ++ "\nData: " ++ reprData data

/-- Embeds DynamicModelViewSet._patch_all_loop (viewsets.py:523-538): the
loop runs inside transaction.atomic(), so on an IntegrityError the store
state rolls back to its initial value and a ValidationError carrying the
message and the attempted data is raised; on success the final store state
and the update count are returned. -/
def patch_all_loop {DB : Type} (save : DB → Record → Except String DB)
    (data : List (String × Val)) (db : DB) (qs : List Record) :
    DB × Except Err Nat :=
  match loopAux save data db qs with
  | .ok (db2, n) => (db2, .ok n)
  | .error m => (db, .error (.validationError (loopErrMsg m data)))

/-- The ValidationError message produced by _patch_all_query on a store
error (viewsets.py:518-521). -/
def queryErrMsg (m : String) (data : List (String × Val)) : String :=
  "Failed to bulk-update records:\n" ++ m ++ "\nData: " ++ reprData data

/-- Embeds DynamicModelViewSet._patch_all_query (viewsets.py:513-521): the
bulk update of the store (QuerySet.update, an external collaborator) is applied
to the validated data; its affected-row count is returned, and any store
error is re-raised as a ValidationError carrying the message and the data. -/
def patch_all_query (update : List (String × Val) → Except String Nat)
    (data : List (String × Val)) : Except Err Nat :=
  match update data with
  | .ok n => .ok n
  | .error m => .error (.validationError (queryErrMsg m data))

/-- The body of a successful patch-all response (viewsets.py:549). -/
def mkUpdatedBody (n : Nat) : Val :=
  .obj [("meta", .obj [("updated", .num (Int.ofNat n))])]

/-- Embeds DynamicModelViewSet._patch_all (viewsets.py:540-549): filter the
queryset, validate the payload, update by query or by loop, and answer 200
with only a meta.updated count. filterFn models self.filter_queryset and
update models QuerySet.update on the filtered queryset. -/
def patch_all {DB : Type} (fields : List (String × FieldSpec)) (rawData : Val)
    (query : Bool) (baseQS : List Record) (filterFn : List Record → List Record)
    (update : List Record → List (String × Val) → Except String Nat)
    (save : DB → Record → Except String DB) (db : DB) :
    DB × Except Err Resp :=
  let qs := filterFn baseQS
  match validate_patch_all fields rawData with
  | .error e => (db, .error e)
  | .ok data =>
    if query then
      match patch_all_query (update qs) data with
      | .ok n => (db, .ok ⟨mkUpdatedBody n, 200⟩)
      | .error e => (db, .error e)
    else
      match patch_all_loop save data db qs with
      | (db2, .ok n) => (db2, .ok ⟨mkUpdatedBody n, 200⟩)
      | (db2, .error e) => (db2, .error e)

/-- A per-item error entry of _create_many (viewsets.py:651): the error
detail plus the original input. -/
def errObj (m : String) (src : Val) : Val :=
  .obj [("detail", .str m), ("source", src)]

/-- The per-entry loop of DynamicModelViewSet._create_many
(viewsets.py:646-657), threading the store state and returning the store,
the items created so far, the error entries, and the validated entries still
pending (collected only when eager per-item creation is disabled). validate
models serializer construction plus is_valid, persist models perform_create
plus to_representation, eagerCreate models ENABLE_BULK_PARTIAL_CREATION. -/
def cmLoop {DB : Type} (validate : Val → Except String Val)
    (persist : DB → Val → DB × Val) (eagerCreate : Bool) :
    DB → List Val → DB × List Val × List Val × List Val
  | db, [] => (db, [], [], [])
  | db, e :: rest =>
    match validate e with
    | .error m =>
      let r := cmLoop validate persist eagerCreate db rest
      (r.1, r.2.1, errObj m e :: r.2.2.1, r.2.2.2)
    | .ok v =>
      if eagerCreate then
        let pd := persist db v
        let r := cmLoop validate persist eagerCreate pd.1 rest
        (r.1, pd.2 :: r.2.1, r.2.2.1, r.2.2.2)
      else
        let r := cmLoop validate persist eagerCreate db rest
        (r.1, r.2.1, r.2.2.1, v :: r.2.2.2)

/-- The deferred-persistence pass of _create_many (viewsets.py:658-661):
persist every pending validated entry in order, collecting representations. -/
def persistAll {DB : Type} (persist : DB → Val → DB × Val) :
    DB → List Val → DB × List Val
  | db, [] => (db, [])
  | db, v :: rest =>
    let pd := persist db v
    let r := persistAll persist pd.1 rest
    (r.1, pd.2 :: r.2)

/-- Embeds DynamicModelViewSet._create_many (viewsets.py:639-672): validate
each entry, persisting immediately when eager per-item creation is enabled,
otherwise persisting the whole batch only when no entry failed; render the
created items through the sideloading processor (external collaborator),
append the error entries under the errors key when any, and answer 201 on
zero errors, else 400. -/
def create_many {DB : Type} (validate : Val → Except String Val)
    (persist : DB → Val → DB × Val)
    (sideload : List Val → List (String × Val)) (eagerCreate : Bool)
    (db : DB) (data : List Val) : DB × Resp :=
  let r := cmLoop validate persist eagerCreate db data
  let errs := r.2.2.1
  let post :=
    if !eagerCreate && errs.isEmpty then persistAll persist r.1 r.2.2.2
    else (r.1, [])
  let items := r.2.1 ++ post.2
  let fieldsOut := sideload items
  let body :=
    if errs.isEmpty then Val.obj fieldsOut
    else Val.obj (assocSet fieldsOut ("errors") (.list errs))
  (post.1, ⟨body, if errs.isEmpty then 201 else 400⟩)

/-- The error entries _create_many accumulates, written directly as a
filter over the payload for use in theorem statements. -/
def cmErrors (validate : Val → Except String Val) (data : List Val) :
    List Val :=
  data.filterMap
    (fun e =>
      match validate e with
      | .error m => some (errObj m e)
      | .ok _ => none)

/-- The dotted-list expansion for .in object-feature keys
(viewsets.py:77-85): a bracketed value containing a comma is split into its
alternatives, any other value is kept whole. -/
def expandIn (values : List String) : List String :=
  values.foldl
    (fun acc v =>
      if pyStarts v ("[") && pyEnds v ("]") && decide (2 ≤ (pySplit v (',')).length)
      then acc ++ pySplit ((v.drop 1).dropRight 1) (',')
      else acc ++ [v])
    []

/-- The ParseError message for a malformed object-feature key
(viewsets.py:74-76). -/
def malformedKeyMsg (k : String) : String :=
  "\"" ++ k ++ "\" is not a well-formed filter key."

/-- The parameter loop of _extract_object_params (viewsets.py:54-86) in the
non-raw case: the exact feature name is skipped, keys without the feature
prefix are skipped, a key closed by a brace (with optional trailing square
brackets) is stripped to its subkey and stored, and any other prefixed key
raises a ParseError. -/
def eopLoop (originalName pfx : String) (offset : Nat) :
    List (String × List String) → List (String × List String) →
    Except Err (List (String × List String))
  | acc, [] => .ok acc
  | acc, (k, value) :: rest =>
    if k = originalName then eopLoop originalName pfx offset acc rest
    else if !(pyStarts k pfx) then eopLoop originalName pfx offset acc rest
    else if pyEnds k ("\x7d") then
      let sub := (k.drop offset).dropRight 1
      let value := if pyEnds sub (".in") then expandIn value else value
      eopLoop originalName pfx offset (assocSet acc sub value) rest
    else if pyEnds k ("\x7d[]") then
      let sub := (k.drop offset).dropRight 3
      let value := if pyEnds sub (".in") then expandIn value else value
      eopLoop originalName pfx offset (assocSet acc sub value) rest
    else .error (.parseError (malformedKeyMsg k))

/-- Embeds _extract_object_params (viewsets.py:31-88) with raw=False, the
default used by get_request_feature: params is the query-parameter
key/values list, name is the feature name such as the filter feature. -/
def extract_object_params (name : String)
    (params : List (String × List String)) :
    Except Err (List (String × List String)) :=
  eopLoop name (name.dropRight 1) (name.dropRight 1).length [] params

/-- Whether a query-parameter key is malformed for an object feature: it
carries the feature prefix but is closed neither by a brace nor by a brace
with trailing square brackets. -/
def badKey (name k : String) : Bool :=
  pyStarts k (name.dropRight 1) && !(pyEnds k ("\x7d")) && !(pyEnds k ("\x7d[]"))

/-- The subkey formed from an object-feature parameter key by stripping the
feature prefix and the n closing characters. -/
def subkeyOf (name k : String) (n : Nat) : String :=
  (k.drop (name.dropRight 1).length).dropRight n

/-- The value stored for a subkey, after the .in expansion. -/
def procVal (sub : String) (v : List String) : List String :=
  if pyEnds sub (".in") then expandIn v else v

/-- A node of the request-field tree built by get_request_fields: either a
terminal include/exclude flag or a nested tree for a relation. -/
inductive FieldEntry where
  | flag (b : Bool) : FieldEntry
  | nested (t : List (String × FieldEntry)) : FieldEntry

/-- The request-field tree, keyed by field name. -/
def RFTree : Type := List (String × FieldEntry)

/-- The ParseError message for an invalid dotted field (viewsets.py:319). -/
def invalidFieldMsg (f : String) : String :=
  "\"" ++ f ++ "\" is not a valid field."

/-- What the segment loop of get_request_fields does after it has walked
into a terminal flag (a Python bool): a single empty remaining segment is
the accepted trailing-dot case and leaves the tree alone, an interior empty
segment is a ParseError, and any non-empty segment hits a Python TypeError
because a bool is neither a container nor assignable. -/
def flagDescend (f : String) : List String → Except Err Unit
  | [] => .ok ()
  | [s] =>
    if s = "" then .ok ()
    else .error (.typeError ("bool object does not support item assignment"))
  | s :: _ :: _ =>
    if s = "" then .error (.parseError (invalidFieldMsg f))
    else .error (.typeError ("argument of type bool is not iterable"))

/-- The segment loop of WithDynamicViewSetMixin.get_request_fields
(viewsets.py:305-319) for one dotted value f already split into segments:
a non-empty final segment stores the include flag, an empty final segment
is accepted and changes nothing, an empty interior segment raises a
ParseError, and an interior segment walks into (or creates) the nested
tree for that relation. -/
def insertSegs (f : String) (inc : Bool) : List String → RFTree → Except Err RFTree
  | [], t => .ok t
  | [s], t => if s = "" then .ok t else .ok (assocSet t s (.flag inc))
  | s :: s2 :: rest, t =>
    if s = "" then .error (.parseError (invalidFieldMsg f))
    else
      match assocFind t s with
      | none =>
        match insertSegs f inc (s2 :: rest) [] with
        | .ok sub => .ok (assocSet t s (.nested sub))
        | .error e => .error e
      | some (.nested sub) =>
        match insertSegs f inc (s2 :: rest) sub with
        | .ok sub2 => .ok (assocSet t s (.nested sub2))
        | .error e => .error e
      | some (.flag _) =>
        match flagDescend f (s2 :: rest) with
        | .ok _ => .ok t
        | .error e => .error e

/-- The per-value loop of get_request_fields (viewsets.py:304-319): each
dotted value is split on the dot and folded into the request-field tree. -/
def applyFields (inc : Bool) : List String → RFTree → Except Err RFTree
  | [], t => .ok t
  | f :: fs, t =>
    match insertSegs f inc (pySplit f ('.')) t with
    | .ok t2 => applyFields inc fs t2
    | .error e => .error e

/-- Embeds WithDynamicViewSetMixin.get_request_fields (viewsets.py:285-322):
the include values (mapped to True) and then the exclude values (mapped to
False) are folded into one request-field tree; none models a feature that
is not enabled. -/
def get_request_fields (includeFields excludeFields : Option (List String)) :
    Except Err RFTree :=
  match (match includeFields with
         | none => Except.ok ([] : RFTree)
         | some fs => applyFields true fs []) with
  | .error e => .error e
  | .ok t =>
    match excludeFields with
    | none => .ok t
    | some fs => applyFields false fs t

/-- Parsing of a single include (inc true) or exclude (inc false) value
through get_request_fields, for stating per-value properties. -/
def parseField (f : String) (inc : Bool) : Except Err RFTree :=
  if inc then get_request_fields (some [f]) none
  else get_request_fields none (some [f])

/-- The tree a single dotted path of non-empty segments produces: nested
singleton maps ending in the include flag. -/
def chainFlag (inc : Bool) : List String → RFTree
  | [] => []
  | [s] => [(s, .flag inc)]
  | s :: s2 :: rest => [(s, .nested (chainFlag inc (s2 :: rest)))]

/-- The tree a dotted path with a trailing empty segment produces: nested
singleton maps ending in an empty nested map for the last relation. -/
def chainNested : List String → RFTree
  | [] => []
  | [s] => [(s, .nested [])]
  | s :: s2 :: rest => [(s, .nested (chainNested (s2 :: rest)))]

/-- Embeds the tail of WithDynamicViewSetMixin.list_related
(viewsets.py:409-452) over abstract collaborators: filterParams is the
extracted filter feature map, fieldSrc the source of the looked-up relation
source (none when the serializer has no such field), qs the pk-filtered
queryset, getRelated the getattr on the root object (failing with
ObjectDoesNotExist), serializeRel the rendering of the related serializer. -/
def list_related {O R : Type} (filterParams : List (String × List String))
    (fieldName : String) (fieldSrc : Option String) (qs : List O)
    (getRelated : O → String → Except Unit R) (serializeRel : R → Val) :
    Except Err Resp :=
  if filterParams.isEmpty = false then
    .error (.validationError ("Filtering is not enabled on relation endpoints."))
  else
    match fieldSrc with
    | none => .error (.validationError ("Unknown field: \"" ++ fieldName ++ "\"."))
    | some src =>
      match qs.head? with
      | none => .ok ⟨.str ("Not found"), 404⟩
      | some obj =>
        match getRelated obj src with
        | .error _ => .ok ⟨.obj [], 200⟩
        | .ok rel => .ok ⟨serializeRel rel, 200⟩

/-- Claim C7: parsing the patch-all query parameter yields off (the Python
None) when the parameter is absent or empty, the distinct query mode when
its lowercased value equals the query keyword, loop mode when its lowercased
value is truthy, and a ParseError for every other non-empty value. -/
theorem c7_patch_all_param_parse (istruthy : String → Bool)
    (param : Option String) :
    ((param = none ∨ param = some ("")) →
       get_request_patch_all istruthy param = .ok .off) ∧
    (∀ s, param = some s → s ≠ "" → pyLower s = "query" →
       get_request_patch_all istruthy param = .ok .query) ∧
    (∀ s, param = some s → s ≠ "" → pyLower s ≠ "query" →
       istruthy (pyLower s) = true →
       get_request_patch_all istruthy param = .ok .loop) ∧
    (∀ s, param = some s → s ≠ "" → pyLower s ≠ "query" →
       istruthy (pyLower s) = false →
       get_request_patch_all istruthy param =
         .error (.parseError ("\"" ++ pyLower s ++ "\" is not valid for patch-all"))) := by
  refine ⟨?_, ?_, ?_, ?_⟩
  · rintro (rfl | rfl) <;> simp [get_request_patch_all]
  · rintro s rfl hne hq
    simp [get_request_patch_all, hne, hq]
  · rintro s rfl hne hq ht
    simp [get_request_patch_all, hne, hq, ht]
  · rintro s rfl hne hq ht
    simp [get_request_patch_all, hne, hq, ht]

/-- Witness for claim C7 at concrete inputs. -/
theorem c7_patch_all_param_parse_witness :
    get_request_patch_all (fun s => decide (s = "true")) (some ("TRUE")) =
      .ok .loop ∧
    get_request_patch_all (fun s => decide (s = "true")) (some ("PATCH")) =
      .error (.parseError ("\"" ++ pyLower ("PATCH") ++ "\" is not valid for patch-all")) :=
  ⟨(c7_patch_all_param_parse (fun s => decide (s = "true")) (some ("TRUE"))).2.2.1
     ("TRUE") rfl (by decide) (by decide) (by decide),
   (c7_patch_all_param_parse (fun s => decide (s = "true")) (some ("PATCH"))).2.2.2
     ("PATCH") rfl (by decide) (by decide) (by decide)⟩

/-- Claim C9: in list_related, an empty pk-filtered queryset answers 404
with a plain not-found body, while a present root whose relation access
raises ObjectDoesNotExist answers an empty object body with status 200. -/
theorem c9_list_related_not_found_vs_empty_relation {O R : Type}
    (fieldName fieldSrc : String) (qs : List O)
    (getRelated : O → String → Except Unit R) (serializeRel : R → Val) :
    (qs.head? = none →
       list_related [] fieldName (some fieldSrc) qs getRelated serializeRel =
         .ok ⟨.str ("Not found"), 404⟩) ∧
    (∀ obj, qs.head? = some obj → getRelated obj fieldSrc = .error () →
       list_related [] fieldName (some fieldSrc) qs getRelated serializeRel =
         .ok ⟨.obj [], 200⟩) := by
  constructor
  · intro h
    simp [list_related, h]
  · intro obj h hrel
    simp [list_related, h, hrel]

/-- Witness for claim C9 at concrete inputs. -/
theorem c9_list_related_witness :
    list_related [] ("owner") (some ("owner")) ([] : List Nat)
        (fun _ _ => .error ()) (fun _ : Unit => Val.null) =
      .ok ⟨.str ("Not found"), 404⟩ ∧
    list_related [] ("owner") (some ("owner")) ([7] : List Nat)
        (fun _ _ => .error ()) (fun _ : Unit => Val.null) =
      .ok ⟨.obj [], 200⟩ :=
  ⟨(c9_list_related_not_found_vs_empty_relation ("owner") ("owner") []
      (fun _ _ => .error ()) (fun _ => Val.null)).1 rfl,
   (c9_list_related_not_found_vs_empty_relation ("owner") ("owner") [7]
      (fun _ _ => .error ()) (fun _ => Val.null)).2 7 rfl rfl⟩

/-- Claim C10: an empty-list payload is returned by the bulk-payload
extractor but is falsy, so create, update and destroy all dispatch to the
singular path, and a bulk-shaped delete without a lookup identifier answers
405. -/
theorem c10_empty_bulk_payload_dispatch (pluralName : String)
    (enableBulkUpdate enablePatchAll : Bool) (istruthy : String → Bool) :
    get_bulk_payload pluralName (.list []) = some (.list []) ∧
    create_dispatch pluralName (.list []) = .singular ∧
    update_dispatch enableBulkUpdate enablePatchAll istruthy none pluralName
        (.list []) = .ok .singular ∧
    destroy_dispatch pluralName (.list []) true = .singular ∧
    destroy_dispatch pluralName (.list []) false = .methodNotAllowed := by
  refine ⟨rfl, rfl, ?_, rfl, rfl⟩
  cases enableBulkUpdate <;> cases enablePatchAll <;>
    simp [update_dispatch, get_request_patch_all, get_bulk_payload, pyTruthy]

/-- Claim C4: a successful patch-all in query mode answers 200 with exactly
the meta.updated body carrying the affected-row count that the bulk
update of the store returned on the filtered queryset, no records. -/
theorem c4_patch_all_query_response {DB : Type}
    (fields : List (String × FieldSpec)) (rawData : Val) (baseQS : List Record)
    (filterFn : List Record → List Record)
    (update : List Record → List (String × Val) → Except String Nat)
    (save : DB → Record → Except String DB) (db : DB)
    (data : List (String × Val)) (n : Nat)
    (hval : validate_patch_all fields rawData = .ok data)
    (hupd : update (filterFn baseQS) data = .ok n) :
    patch_all fields rawData true baseQS filterFn update save db =
      (db, .ok ⟨mkUpdatedBody n, 200⟩) := by
  simp [patch_all, hval, patch_all_query, hupd]

/-- Witness for claim C4: the spec scenario of a bulk update over three
matching rows answering meta.updated three. -/
theorem c4_patch_all_query_response_witness :
    validate_patch_all [(("fur"), (⟨some ("fur"), false⟩ : FieldSpec))]
        (Val.obj [(("fur"), Val.str ("gold"))]) =
      .ok [(("fur"), Val.str ("gold"))] ∧
    patch_all [(("fur"), (⟨some ("fur"), false⟩ : FieldSpec))]
        (Val.obj [(("fur"), Val.str ("gold"))]) true
        ([[("id", Val.num 1)], [("id", Val.num 2)], [("id", Val.num 3)]] : List Record)
        (fun qs => qs) (fun qs _ => .ok qs.length)
        (fun (d : Nat) _ => .ok d) 0 =
      (0, .ok ⟨mkUpdatedBody 3, 200⟩) :=
  ⟨rfl,
   c4_patch_all_query_response [(("fur"), ⟨some ("fur"), false⟩)]
     (Val.obj [(("fur"), Val.str ("gold"))])
     ([[("id", Val.num 1)], [("id", Val.num 2)], [("id", Val.num 3)]])
     (fun qs => qs) (fun qs _ => .ok qs.length) (fun (d : Nat) _ => .ok d) 0
     [(("fur"), Val.str ("gold"))] 3 rfl rfl⟩
/-- On success, the update count of the transaction loop is the queryset size:
every record was saved individually. -/
theorem loopAux_ok_length {DB : Type} (save : DB → Record → Except String DB)
    (data : List (String × Val)) :
    ∀ (qs : List Record) (db db2 : DB) (n : Nat),
      loopAux save data db qs = .ok (db2, n) → n = qs.length := by
  intro qs
  induction qs with
  | nil =>
    intro db db2 n h
    simp [loopAux] at h
    obtain ⟨h1, h2⟩ := h
    simp only [List.length_nil]
    omega
  | cons r rest ih =>
    intro db db2 n h
    simp only [loopAux] at h
    cases hs : save db (applyData data r) with
    | error m => simp only [hs] at h; exact Except.noConfusion h
    | ok db1 =>
      simp only [hs] at h
      cases hl : loopAux save data db1 rest with
      | error m => simp only [hl] at h; exact Except.noConfusion h
      | ok p =>
        obtain ⟨d2, n2⟩ := p
        simp only [hl] at h
        injection h with h2
        have hn : n2 + 1 = n := congrArg Prod.snd h2
        have hlen := ih db1 d2 n2 hl
        simp [← hn, hlen]

/-- If every record of a proper prefix saves and the save of the next record
fails, then the whole transaction loop fails with that error. -/
theorem loopAux_prefix_fail {DB : Type} (save : DB → Record → Except String DB)
    (data : List (String × Val)) (r : Record) (post : List Record) (m : String) :
    ∀ (pre : List Record) (db db1 : DB) (n : Nat),
      loopAux save data db pre = .ok (db1, n) →
      save db1 (applyData data r) = .error m →
      loopAux save data db (pre ++ r :: post) = .error m := by
  intro pre
  induction pre with
  | nil =>
    intro db db1 n h hs
    simp [loopAux] at h
    obtain ⟨h1, h2⟩ := h
    subst h1
    simp [loopAux, hs]
  | cons q pre2 ih =>
    intro db db1 n h hs
    simp only [loopAux] at h
    cases hq : save db (applyData data q) with
    | error me => simp only [hq] at h; exact Except.noConfusion h
    | ok dbq =>
      simp only [hq] at h
      cases hl : loopAux save data dbq pre2 with
      | error me => simp only [hl] at h; exact Except.noConfusion h
      | ok p =>
        obtain ⟨d1, n1⟩ := p
        simp only [hl] at h
        injection h with h2
        have hd : d1 = db1 := congrArg Prod.fst h2
        subst hd
        rw [List.cons_append]
        simp only [loopAux, hq]
        rw [ih dbq d1 n1 hl hs]

/-- Claim C1: patch-all in loop mode saves each record of the queryset
individually inside one atomic transaction; if any save raises an
IntegrityError the store state rolls back to its initial value and a
ValidationError carrying the underlying message and the attempted data is
raised, and on success the reported count is the number of records. -/
theorem c1_patch_all_loop_atomic {DB : Type}
    (save : DB → Record → Except String DB) (data : List (String × Val))
    (db : DB) (qs : List Record) :
    (∀ (pre post : List Record) (r : Record) (db1 : DB) (n : Nat) (m : String),
        qs = pre ++ r :: post →
        loopAux save data db pre = .ok (db1, n) →
        save db1 (applyData data r) = .error m →
        patch_all_loop save data db qs =
          (db, .error (.validationError (loopErrMsg m data)))) ∧
    (∀ (db2 : DB) (n : Nat),
        loopAux save data db qs = .ok (db2, n) →
        patch_all_loop save data db qs = (db2, .ok n) ∧ n = qs.length) := by
  constructor
  · intro pre post r db1 n m hqs hpre hs
    subst hqs
    have hfail := loopAux_prefix_fail save data r post m pre db db1 n hpre hs
    simp [patch_all_loop, hfail]
  · intro db2 n h
    exact ⟨by simp [patch_all_loop, h], loopAux_ok_length save data qs db db2 n h⟩

/-- Witness for claim C1: two records, the second save violating a
constraint; the state rolls back and the error carries message and data. -/
theorem c1_patch_all_loop_atomic_witness :
    loopAux (fun db _ => if db = 0 then .ok 1 else .error ("UNIQUE constraint failed"))
        [(("fur"), Val.str ("gold"))] 0 [[("id", Val.num 1)]] = .ok (1, 1) ∧
    patch_all_loop
        (fun db _ => if db = 0 then .ok 1 else .error ("UNIQUE constraint failed"))
        [(("fur"), Val.str ("gold"))] 0
        [[("id", Val.num 1)], [("id", Val.num 2)]] =
      (0, .error (.validationError
            (loopErrMsg ("UNIQUE constraint failed") [(("fur"), Val.str ("gold"))]))) :=
  ⟨rfl,
   (c1_patch_all_loop_atomic
       (fun db _ => if db = 0 then .ok 1 else .error ("UNIQUE constraint failed"))
       [(("fur"), Val.str ("gold"))] 0
       [[("id", Val.num 1)], [("id", Val.num 2)]]).1
     [[("id", Val.num 1)]] [] [("id", Val.num 2)] 1 1
     ("UNIQUE constraint failed") rfl rfl rfl⟩
/-- The per-key loop of _validate_patch_all raises a ValidationError exactly
when some payload entry is rejected (unknown, wildcard-source or read-only
field). -/
theorem vpaLoop_error_iff (fields : List (String × FieldSpec)) :
    ∀ (items acc : List (String × Val)),
      (∃ msg, vpaLoop fields items acc = .error (.validationError msg)) ↔
        ∃ p ∈ items, vpaBad fields p = true := by
  intro items
  induction items with
  | nil => intro acc; simp [vpaLoop]
  | cons p rest ih =>
    intro acc
    obtain ⟨name, v⟩ := p
    simp only [vpaLoop]
    cases hf : assocFind fields name with
    | none =>
      simp only [hf]
      constructor
      · intro _
        exact ⟨(name, v), List.mem_cons_self _ _, by simp [vpaBad, hf]⟩
      · intro _
        exact ⟨"Unknown field: \"" ++ name ++ "\"", rfl⟩
    | some f =>
      simp only [hf]
      by_cases hb : srcName f name = "*" ∨ f.read_only = true
      · rw [if_pos hb]
        constructor
        · intro _
          refine ⟨(name, v), List.mem_cons_self _ _, ?_⟩
          simp only [vpaBad, hf]
          rcases hb with hb | hb
          · simp [hb]
          · simp [hb]
        · intro _
          exact ⟨"Cannot update field: \"" ++ name ++ "\"", rfl⟩
      · rw [if_neg hb]
        rw [ih (assocSet acc (srcName f name) v)]
        push_neg at hb
        have hbad : vpaBad fields (name, v) = false := by
          simp [vpaBad, hf, hb.1, hb.2]
        constructor
        · intro ⟨q, hq, hqb⟩
          exact ⟨q, List.mem_cons_of_mem _ hq, hqb⟩
        · intro ⟨q, hq, hqb⟩
          rcases List.mem_cons.mp hq with rfl | hq2
          · rw [hbad] at hqb; exact absurd hqb (by simp)
          · exact ⟨q, hq2, hqb⟩

/-- On an error-free payload the per-key loop returns the source-to-value
fold started from the accumulator. -/
theorem vpaLoop_ok (fields : List (String × FieldSpec)) :
    ∀ (items acc : List (String × Val)),
      (∀ p ∈ items, vpaBad fields p = false) →
      vpaLoop fields items acc =
        .ok (items.foldl
          (fun a p =>
            match assocFind fields p.1 with
            | some f => assocSet a (srcName f p.1) p.2
            | none => a)
          acc) := by
  intro items
  induction items with
  | nil => intro acc _; simp [vpaLoop]
  | cons p rest ih =>
    intro acc hall
    obtain ⟨name, v⟩ := p
    have hhead := hall (name, v) (List.mem_cons_self _ _)
    simp only [vpaLoop, List.foldl_cons]
    cases hf : assocFind fields name with
    | none => simp [vpaBad, hf] at hhead
    | some f =>
      simp only [hf]
      simp only [vpaBad, hf] at hhead
      rw [if_neg]
      · exact ih (assocSet acc (srcName f name) v)
          (fun q hq => hall q (List.mem_cons_of_mem _ hq))
      · intro hor
        rcases hor with hb | hb
        · simp [hb] at hhead
        · simp [hb] at hhead

/-- Claim C5: patch-all validation raises a ValidationError exactly when
the payload is not a dict or some payload entry names an unknown,
wildcard-source or read-only field; otherwise it returns the mapping from
the source of each matched field to the supplied value. -/
theorem c5_validate_patch_all_spec (fields : List (String × FieldSpec))
    (data : Val) :
    ((∃ msg, validate_patch_all fields data = .error (.validationError msg)) ↔
       ((∀ items, data ≠ .obj items) ∨
        ∃ items, data = .obj items ∧ ∃ p ∈ items, vpaBad fields p = true)) ∧
    (∀ items, data = .obj items → (∀ p ∈ items, vpaBad fields p = false) →
       validate_patch_all fields data = .ok (buildValidated fields items)) := by
  constructor
  · cases data with
    | obj items =>
      simp only [validate_patch_all]
      rw [vpaLoop_error_iff fields items []]
      constructor
      · intro h
        exact Or.inr ⟨items, rfl, h⟩
      · intro h
        rcases h with h | ⟨items2, heq, h2⟩
        · exact absurd rfl (h items)
        · obtain rfl : items2 = items := (Val.obj.injEq _ _).mp heq.symm
          exact h2
    | null => simp [validate_patch_all]
    | bool b => simp [validate_patch_all]
    | num n => simp [validate_patch_all]
    | str s => simp [validate_patch_all]
    | list vs => simp [validate_patch_all]
  · intro items hdata hall
    subst hdata
    simp only [validate_patch_all]
    exact vpaLoop_ok fields items [] hall

/-- Witness for claim C5: one writable declared field validates into its
source-to-value map. -/
theorem c5_validate_patch_all_spec_witness :
    (∀ p ∈ [(("fur"), Val.str ("gold"))],
        vpaBad [(("fur"), (⟨some ("fur"), false⟩ : FieldSpec))] p = false) ∧
    validate_patch_all [(("fur"), (⟨some ("fur"), false⟩ : FieldSpec))]
        (Val.obj [(("fur"), Val.str ("gold"))]) =
      .ok (buildValidated [(("fur"), (⟨some ("fur"), false⟩ : FieldSpec))]
            [(("fur"), Val.str ("gold"))]) :=
  ⟨by decide,
   (c5_validate_patch_all_spec [(("fur"), ⟨some ("fur"), false⟩)]
       (Val.obj [(("fur"), Val.str ("gold"))])).2
     [(("fur"), Val.str ("gold"))] rfl (by decide)⟩
/-- The error list the create-many loop accumulates is the filter of the
payload by validation failure, in payload order. -/
theorem cmLoop_errs {DB : Type} (validate : Val → Except String Val)
    (persist : DB → Val → DB × Val) (eagerCreate : Bool) :
    ∀ (data : List Val) (db : DB),
      (cmLoop validate persist eagerCreate db data).2.2.1 =
        cmErrors validate data := by
  intro data
  induction data with
  | nil => intro db; simp [cmLoop, cmErrors]
  | cons e rest ih =>
    intro db
    simp only [cmLoop, cmErrors, List.filterMap_cons]
    cases hv : validate e with
    | error m => simp [hv, ih db, cmErrors]
    | ok v =>
      cases eagerCreate with
      | false => simp [hv, ih db, cmErrors]
      | true => simp [hv, ih (persist db v).1, cmErrors]

/-- Without eager per-item creation the loop never writes: the store state
it returns is the one it was given. -/
theorem cmLoop_db_notEager {DB : Type} (validate : Val → Except String Val)
    (persist : DB → Val → DB × Val) :
    ∀ (data : List Val) (db : DB),
      (cmLoop validate persist false db data).1 = db := by
  intro data
  induction data with
  | nil => intro db; simp [cmLoop]
  | cons e rest ih =>
    intro db
    simp only [cmLoop]
    cases hv : validate e with
    | error m => simp [ih db]
    | ok v => simp [ih db]

/-- With eager per-item creation the final store state of the loop is the fold
that persists exactly the entries that validate, in payload order. -/
theorem cmLoop_db_eager {DB : Type} (validate : Val → Except String Val)
    (persist : DB → Val → DB × Val) :
    ∀ (data : List Val) (db : DB),
      (cmLoop validate persist true db data).1 =
        data.foldl
          (fun d e =>
            match validate e with
            | .ok v => (persist d v).1
            | .error _ => d)
          db := by
  intro data
  induction data with
  | nil => intro db; simp [cmLoop]
  | cons e rest ih =>
    intro db
    simp only [cmLoop, List.foldl_cons]
    cases hv : validate e with
    | error m => simp [hv, ih db]
    | ok v => simp [hv, ih (persist db v).1]

/-- Claim C2: a create-many response is 201 exactly when no payload item
failed validation; otherwise it is 400 (even with eager per-item creation
and successes present) and the body is the sideloaded created items with
the errors key holding one detail-plus-source entry per failed item. -/
theorem c2_create_many_status_and_errors {DB : Type}
    (validate : Val → Except String Val) (persist : DB → Val → DB × Val)
    (sideload : List Val → List (String × Val)) (eagerCreate : Bool)
    (db : DB) (data : List Val) :
    ((create_many validate persist sideload eagerCreate db data).2.status = 201 ↔
       cmErrors validate data = []) ∧
    (cmErrors validate data ≠ [] →
       (create_many validate persist sideload eagerCreate db data).2.status = 400 ∧
       (create_many validate persist sideload eagerCreate db data).2.body =
         .obj (assocSet
                (sideload ((cmLoop validate persist eagerCreate db data).2.1))
                ("errors")
                (.list (cmErrors validate data)))) := by
  have herr := cmLoop_errs validate persist eagerCreate data db
  constructor
  · simp only [create_many, herr]
    cases he : (cmErrors validate data).isEmpty with
    | true => simp [List.isEmpty_iff.mp he]
    | false =>
      have : cmErrors validate data ≠ [] := by
        intro hnil; rw [hnil] at he; simp at he
      simp [this]
  · intro hne
    have hie : (cmErrors validate data).isEmpty = false := by
      cases he : (cmErrors validate data).isEmpty with
      | true => exact absurd (List.isEmpty_iff.mp he) hne
      | false => rfl
    constructor
    · simp [create_many, herr, hie]
    · simp [create_many, herr, hie]

/-- Witness for claim C2: the spec scenario of one valid and one invalid
item with eager per-item creation answering 400. -/
theorem c2_create_many_status_and_errors_witness :
    cmErrors
        (fun v => match v with
          | .str ("") => .error ("blank")
          | _ => .ok v)
        [Val.str ("Fido"), Val.str ("")] ≠ [] ∧
    (create_many
        (fun v => match v with
          | .str ("") => .error ("blank")
          | _ => .ok v)
        (fun (d : Nat) v => (d + 1, v))
        (fun items => [(("dogs"), Val.list items)]) true 0
        [Val.str ("Fido"), Val.str ("")]).2.status = 400 :=
  ⟨fun h => List.noConfusion h,
   ((c2_create_many_status_and_errors
       (fun v => match v with
         | .str ("") => .error ("blank")
         | _ => .ok v)
       (fun (d : Nat) v => (d + 1, v))
       (fun items => [(("dogs"), Val.list items)]) true 0
       [Val.str ("Fido"), Val.str ("")]).2
     (fun h => List.noConfusion h)).1⟩

/-- Claim C3: without eager per-item creation, a single validation failure
means no store write at all (the state is unchanged for every possible
persist collaborator); with it, every entry that validates is persisted
immediately in payload order regardless of failures of other entries. -/
theorem c3_create_many_persistence_discipline {DB : Type}
    (validate : Val → Except String Val) (persist : DB → Val → DB × Val)
    (sideload : List Val → List (String × Val)) (db : DB) (data : List Val) :
    ((∃ e ∈ data, ∃ m, validate e = .error m) →
       (create_many validate persist sideload false db data).1 = db) ∧
    ((create_many validate persist sideload true db data).1 =
       data.foldl
         (fun d e =>
           match validate e with
           | .ok v => (persist d v).1
           | .error _ => d)
         db) := by
  constructor
  · intro ⟨e, he, m, hm⟩
    have hne : cmErrors validate data ≠ [] := by
      intro hnil
      have hall := List.filterMap_eq_nil_iff.mp hnil e he
      rw [hm] at hall
      exact Option.noConfusion hall
    have hie : (cmErrors validate data).isEmpty = false := by
      cases hi : (cmErrors validate data).isEmpty with
      | true => exact absurd (List.isEmpty_iff.mp hi) hne
      | false => rfl
    have herr := cmLoop_errs validate persist false data db
    simp [create_many, herr, hie, cmLoop_db_notEager validate persist data db]
  · have herr := cmLoop_errs validate persist true data db
    simp [create_many, cmLoop_db_eager validate persist data db]

/-- Witness for claim C3: one invalid item, eager creation disabled, any
persist collaborator; the store is untouched. -/
theorem c3_create_many_persistence_discipline_witness :
    (create_many
        (fun v => match v with
          | .null => .error ("bad")
          | _ => .ok v)
        (fun (d : Nat) v => (d + 1, v)) (fun _ => []) false 0 [Val.null]).1 = 0 :=
  (c3_create_many_persistence_discipline
      (fun v => match v with
        | .null => .error ("bad")
        | _ => .ok v)
      (fun (d : Nat) v => (d + 1, v)) (fun _ => []) 0 [Val.null]).1
    ⟨Val.null, List.mem_cons_self _ _, ("bad"), rfl⟩
/-- A dotted path of non-empty segments inserted into the empty tree builds
the nested chain ending in the include flag. -/
theorem insertSegs_all_nonempty (f : String) (inc : Bool) :
    ∀ segs : List String, (∀ s ∈ segs, s ≠ "") →
      insertSegs f inc segs [] = .ok (chainFlag inc segs) := by
  intro segs
  induction segs with
  | nil => intro _; simp [insertSegs, chainFlag]
  | cons s rest ih =>
    intro hall
    have hs : s ≠ "" := hall s (List.mem_cons_self _ _)
    cases rest with
    | nil => simp [insertSegs, chainFlag, hs, assocSet]
    | cons s2 rest2 =>
      have hrest := ih (fun x hx => hall x (List.mem_cons_of_mem _ hx))
      simp [insertSegs, chainFlag, hs, assocFind, hrest, assocSet]

/-- A dotted path of non-empty segments with a trailing empty segment
inserted into the empty tree builds the nested chain ending in an empty
nested map. -/
theorem insertSegs_trailing_empty (f : String) (inc : Bool) :
    ∀ init : List String, init ≠ [] → (∀ s ∈ init, s ≠ "") →
      insertSegs f inc (init ++ [""]) [] = .ok (chainNested init) := by
  intro init
  induction init with
  | nil => intro h _; exact absurd rfl h
  | cons a init2 ih =>
    intro _ hall
    have ha : a ≠ "" := hall a (List.mem_cons_self _ _)
    cases init2 with
    | nil => simp [insertSegs, chainNested, ha, assocFind, assocSet]
    | cons b init3 =>
      have hrest := ih (by simp) (fun x hx => hall x (List.mem_cons_of_mem _ hx))
      simp only [List.cons_append] at hrest ⊢
      simp [insertSegs, chainNested, ha, assocFind, hrest, assocSet]

/-- A dotted path with an empty interior segment inserted into the empty
tree is a ParseError. -/
theorem insertSegs_interior_empty (f : String) (inc : Bool) :
    ∀ segs : List String,
      (∃ i, i + 1 < segs.length ∧ segs.get? i = some ("")) →
      insertSegs f inc segs [] = .error (.parseError (invalidFieldMsg f)) := by
  intro segs
  induction segs with
  | nil => intro ⟨i, hi, _⟩; simp at hi
  | cons s rest ih =>
    intro ⟨i, hi, hget⟩
    cases rest with
    | nil => simp at hi
    | cons s2 rest2 =>
      cases i with
      | zero =>
        obtain rfl : s = "" := by simpa using hget
        simp [insertSegs]
      | succ j =>
        by_cases hs : s = ""
        · simp [insertSegs, hs]
        · have hrec := ih ⟨j, by simp at hi ⊢; omega, by simpa using hget⟩
          simp [insertSegs, hs, assocFind, hrec]

/-- Parsing a single include or exclude value is exactly one insertion of
its dot-split segments into the empty request-field tree. -/
theorem parseField_eq_insertSegs (f : String) (inc : Bool) :
    parseField f inc = insertSegs f inc (pySplit f ('.')) [] := by
  cases inc with
  | true =>
    simp only [parseField, get_request_fields, applyFields, if_pos]
    cases h : insertSegs f true (pySplit f ('.')) [] with
    | ok t => simp [h, applyFields]
    | error e => simp [h]
  | false =>
    simp only [parseField, get_request_fields, applyFields]
    cases h : insertSegs f false (pySplit f ('.')) [] with
    | ok t => simp [h, applyFields]
    | error e => simp [h]

/-- Claim C6: for an include or exclude value split on the dot, an empty
interior segment is a ParseError, a trailing empty segment is accepted and
yields an empty nested map under the chain of the preceding segments, and
a path of non-empty segments stores the include or exclude flag at its
nesting level. -/
theorem c6_request_fields_segments (f : String) (inc : Bool) :
    ((∃ i, i + 1 < (pySplit f ('.')).length ∧
        (pySplit f ('.')).get? i = some ("")) →
       parseField f inc = .error (.parseError (invalidFieldMsg f))) ∧
    (∀ init : List String, pySplit f ('.') = init ++ [""] → init ≠ [] →
       (∀ s ∈ init, s ≠ "") →
       parseField f inc = .ok (chainNested init)) ∧
    ((∀ s ∈ pySplit f ('.'), s ≠ "") →
       parseField f inc = .ok (chainFlag inc (pySplit f ('.')))) := by
  rw [parseField_eq_insertSegs]
  refine ⟨?_, ?_, ?_⟩
  · intro h
    exact insertSegs_interior_empty f inc (pySplit f ('.')) h
  · intro init hsplit hne hall
    rw [hsplit]
    exact insertSegs_trailing_empty f inc init hne hall
  · intro hall
    exact insertSegs_all_nonempty f inc (pySplit f ('.')) hall

/-- Witness for claim C6: the spec scenarios of a trailing dot accepted as
the whole relation and an interior empty segment rejected. -/
theorem c6_request_fields_segments_witness :
    parseField ("loc.cat_set..name") true =
      .error (.parseError (invalidFieldMsg ("loc.cat_set..name"))) ∧
    parseField ("location.") true = .ok (chainNested ["location"]) :=
  ⟨(c6_request_fields_segments ("loc.cat_set..name") true).1
     ⟨2, by decide, by decide⟩,
   (c6_request_fields_segments ("location.") true).2.1 ["location"]
     (by decide) (by decide) (by decide)⟩
/-- If any parameter key is malformed for the object feature, the
extraction loop raises a ParseError naming a malformed key, regardless of
the accumulator. -/
theorem eopLoop_bad (name : String) (hn : pyEnds name ("\x7d") = true) :
    ∀ (params acc : List (String × List String)),
      (∃ p ∈ params, badKey name p.1 = true) →
      ∃ k, badKey name k = true ∧
        eopLoop name (name.dropRight 1) (name.dropRight 1).length acc params =
          .error (.parseError (malformedKeyMsg k)) := by
  intro params
  induction params with
  | nil =>
    intro acc ⟨p, hp, _⟩
    exact absurd hp (List.not_mem_nil p)
  | cons pv rest ih =>
    intro acc hex
    obtain ⟨k, v⟩ := pv
    simp only [eopLoop]
    by_cases hk : k = name
    · rw [if_pos hk]
      apply ih
      obtain ⟨p, hp, hpb⟩ := hex
      rcases List.mem_cons.mp hp with rfl | hp2
      · rw [hk] at hpb
        simp [badKey, hn] at hpb
      · exact ⟨p, hp2, hpb⟩
    · rw [if_neg hk]
      cases hst : pyStarts k (name.dropRight 1) with
      | false =>
        simp only [hst, Bool.not_false, if_pos]
        apply ih
        obtain ⟨p, hp, hpb⟩ := hex
        rcases List.mem_cons.mp hp with rfl | hp2
        · simp [badKey, hst] at hpb
        · exact ⟨p, hp2, hpb⟩
      | true =>
        simp only [hst, Bool.not_true, Bool.false_eq_true, if_false]
        cases hend1 : pyEnds k ("\x7d") with
        | true =>
          simp only [hend1, if_pos]
          apply ih
          obtain ⟨p, hp, hpb⟩ := hex
          rcases List.mem_cons.mp hp with rfl | hp2
          · simp [badKey, hend1] at hpb
          · exact ⟨p, hp2, hpb⟩
        | false =>
          simp only [hend1, Bool.false_eq_true, if_false]
          cases hend2 : pyEnds k ("\x7d[]") with
          | true =>
            simp only [hend2, if_pos]
            apply ih
            obtain ⟨p, hp, hpb⟩ := hex
            rcases List.mem_cons.mp hp with rfl | hp2
            · simp [badKey, hend2] at hpb
            · exact ⟨p, hp2, hpb⟩
          | false =>
            simp only [hend2, Bool.false_eq_true, if_false]
            exact ⟨k, by simp [badKey, hst, hend1, hend2], rfl⟩

/-- Counterexample to claim C8 as stated: the exact feature-name key ends
with a brace, yet it is skipped rather than stripped to the empty subkey. -/
theorem c8_counterexample :
    extract_object_params ("filter\x7b\x7d") [(("filter\x7b\x7d"), ["x"])] =
      .ok [] ∧
    extract_object_params ("filter\x7b\x7d") [(("filter\x7b\x7d"), ["x"])] ≠
      .ok [((subkeyOf ("filter\x7b\x7d") ("filter\x7b\x7d") 1), ["x"])] := by
  constructor
  · rfl
  · intro h
    injection h with h2
    exact List.noConfusion h2

/-- Claim C8 (amended): a prefixed parameter key closed neither by a brace
nor by a brace with trailing square brackets makes the extraction fail with
a ParseError naming a malformed key, while prefixed keys other than the
exact feature name closed by a brace or by a brace with trailing square
brackets are stripped of the prefix and the closing characters to form the
stored subkey. -/
theorem c8_amended (name : String) (params : List (String × List String))
    (hn : pyEnds name ("\x7d") = true) :
    ((∃ p ∈ params, badKey name p.1 = true) →
       ∃ k, badKey name k = true ∧
         extract_object_params name params =
           .error (.parseError (malformedKeyMsg k))) ∧
    (∀ (k : String) (v : List String), k ≠ name →
       pyStarts k (name.dropRight 1) = true → pyEnds k ("\x7d") = true →
       extract_object_params name [(k, v)] =
         .ok [((subkeyOf name k 1), procVal (subkeyOf name k 1) v)]) ∧
    (∀ (k : String) (v : List String), k ≠ name →
       pyStarts k (name.dropRight 1) = true → pyEnds k ("\x7d") = false →
       pyEnds k ("\x7d[]") = true →
       extract_object_params name [(k, v)] =
         .ok [((subkeyOf name k 3), procVal (subkeyOf name k 3) v)]) := by
  refine ⟨?_, ?_, ?_⟩
  · intro hex
    exact eopLoop_bad name hn params [] hex
  · intro k v hk hst hend
    simp only [extract_object_params, eopLoop, if_neg hk, hst, Bool.not_true,
      Bool.false_eq_true, if_false, hend, if_pos]
    simp [subkeyOf, procVal, assocSet]
  · intro k v hk hst hend1 hend2
    simp only [extract_object_params, eopLoop, if_neg hk, hst, Bool.not_true,
      Bool.false_eq_true, if_false, hend1, hend2, if_pos]
    simp [subkeyOf, procVal, assocSet]

/-- Witness for claim C8 (amended) at a concrete well-formed key. -/
theorem c8_amended_witness :
    extract_object_params ("filter\x7b\x7d") [(("filter\x7bbreed\x7d"), ["lab"])] =
      .ok [((subkeyOf ("filter\x7b\x7d") ("filter\x7bbreed\x7d") 1),
            procVal (subkeyOf ("filter\x7b\x7d") ("filter\x7bbreed\x7d") 1) ["lab"])] :=
  (c8_amended ("filter\x7b\x7d") [(("filter\x7bbreed\x7d"), ["lab"])]
      (by decide)).2.1 ("filter\x7bbreed\x7d") ["lab"]
    (by decide) (by decide) (by decide)
